import Mathlib

/-!
Verification of the AIStore control-plane core: the versioned cluster map
(smapX and its owner), the change-listener bus (smapLis), the create-bucket
transaction (proxyrunner.createBucket) and the notification registry
(notifs / notifListenerBase), shallowly embedded from ais/clustermap.go.
Helper types of the cluster package (node descriptors, flag bitsets,
id-keyed node maps) are modelled from the specification where their code is
not part of the embedded sources.
-/

namespace AIS

/-- Modelled from the spec: a node carries a bitset of flags
(non-electable, in-IC, maintenance, decommissioning); cluster.SnodeFlags
and its bit operations live in the cluster package. The bitset is
represented by one Boolean per bit. -/
structure SnodeFlags where
  nonElectable : Bool := false
  ic : Bool := false
  maintenance : Bool := false
  decommission : Bool := false
deriving DecidableEq, Repr

/-- Modelled from the spec: bitwise-or of two flag bitsets (SnodeFlags.Set). -/
def SnodeFlags.set (f g : SnodeFlags) : SnodeFlags :=
  ⟨f.nonElectable || g.nonElectable, f.ic || g.ic,
   f.maintenance || g.maintenance, f.decommission || g.decommission⟩

/-- Modelled from the spec: and-not of two flag bitsets (SnodeFlags.Clear). -/
def SnodeFlags.clear (f g : SnodeFlags) : SnodeFlags :=
  ⟨f.nonElectable && !g.nonElectable, f.ic && !g.ic,
   f.maintenance && !g.maintenance, f.decommission && !g.decommission⟩

/-- Modelled from the spec: all bits of the mask are present (SnodeFlags.IsSet). -/
def SnodeFlags.isSet (f g : SnodeFlags) : Bool :=
  (!g.nonElectable || f.nonElectable) && (!g.ic || f.ic) &&
  (!g.maintenance || f.maintenance) && (!g.decommission || f.decommission)

/-- Modelled from the spec: some bit of the mask is present (SnodeFlags.IsAnySet). -/
def SnodeFlags.isAnySet (f g : SnodeFlags) : Bool :=
  (f.nonElectable && g.nonElectable) || (f.ic && g.ic) ||
  (f.maintenance && g.maintenance) || (f.decommission && g.decommission)

/-- Flag constant cluster.SnodeNonElectable. -/
def snodeNonElectable : SnodeFlags := { nonElectable := true }

/-- Flag constant cluster.SnodeIC. -/
def snodeIC : SnodeFlags := { ic := true }

/-- Mask constant cluster.SnodeMaintenanceMask: maintenance or decommissioning. -/
def snodeMaintenanceMask : SnodeFlags := { maintenance := true, decommission := true }

/-- Node role: cluster.Snode.DaemonType is either proxy or target. -/
inductive NodeRole where
  | proxy
  | target
deriving DecidableEq, Repr

/-- Modelled from the spec: an immutable node descriptor (cluster.Snode) with a
stable identifier, a role, two network endpoints and a flag bitset. -/
structure Snode where
  id : String
  role : NodeRole
  publicURL : String
  intraURL : String
  flags : SnodeFlags
deriving DecidableEq, Repr

/-- Modelled from the spec: cluster.NodeMap, a mapping from id to node
descriptor, represented as a list of descriptors keyed by their id field. -/
abbrev NodeMap := List Snode

/-- Lookup by id (Go map read m[id]). -/
def nmGet (nm : NodeMap) (id : String) : Option Snode :=
  List.find? (fun x => x.id == id) nm

/-- Go map assignment m[si.ID()] = si: replace the entry with the same key, or
append a fresh one. -/
def nmPut : NodeMap → Snode → NodeMap
  | [], si => [si]
  | x :: xs, si => if x.id == si.id then si :: xs else x :: nmPut xs si

/-- Go map delete(m, id). -/
def nmDel (nm : NodeMap) (id : String) : NodeMap :=
  List.filter (fun x => x.id != id) nm

/-- Server-side cluster map smapX (wrapping cluster.Smap): version, uuid,
creation time, proxies, targets, and the primary reference. -/
structure Smap where
  version : Nat
  uuid : String
  creationTime : String
  pmap : NodeMap
  tmap : NodeMap
  primary : Option Snode
deriving DecidableEq, Repr

/-- Modelled from the spec: cluster.Smap.GetProxy, lookup in Pmap. -/
def Smap.getProxy (m : Smap) (id : String) : Option Snode := nmGet m.pmap id

/-- Modelled from the spec: cluster.Smap.GetTarget, lookup in Tmap. -/
def Smap.getTarget (m : Smap) (id : String) : Option Snode := nmGet m.tmap id

/-- Modelled from the spec: cluster.Smap.GetNode, target lookup first, then
proxy (same search order as smapX.containsID in the source). -/
def Smap.getNode (m : Smap) (id : String) : Option Snode :=
  match m.getTarget id with
  | some si => some si
  | none => m.getProxy id

/-- Source smapX.containsID. -/
def Smap.containsID (m : Smap) (id : String) : Bool :=
  (m.getTarget id).isSome || (m.getProxy id).isSome

/-- Source smapX.isPresent: membership of a descriptor by role and id. -/
def Smap.isPresent (m : Smap) (si : Snode) : Bool :=
  match si.role with
  | .proxy => (m.getProxy si.id).isSome
  | .target => (m.getTarget si.id).isSome

/-- Source smapX.isValid: the primary must be set and present. (The source
additionally asserts that a present primary has a non-empty id.) -/
def Smap.isValid (m : Smap) : Bool :=
  match m.primary with
  | none => false
  | some p => m.isPresent p

/-- Source smapX.addTarget: asserts that the id is fresh (a duplicate daemon
id is a fatal assertion, modelled as an error), then inserts and bumps the
version. -/
def Smap.addTarget (m : Smap) (tsi : Snode) : Except String Smap :=
  if m.containsID tsi.id then .error "FATAL: duplicate daemon ID"
  else .ok { m with tmap := nmPut m.tmap tsi, version := m.version + 1 }

/-- Source smapX.addProxy: same discipline as addTarget, on Pmap. -/
def Smap.addProxy (m : Smap) (psi : Snode) : Except String Smap :=
  if m.containsID psi.id then .error "FATAL: duplicate daemon ID"
  else .ok { m with pmap := nmPut m.pmap psi, version := m.version + 1 }

/-- Source smapX.delTarget: asserts presence, deletes, bumps the version. -/
def Smap.delTarget (m : Smap) (sid : String) : Except String Smap :=
  if (m.getTarget sid).isNone then .error "FATAL: target is not in smap"
  else .ok { m with tmap := nmDel m.tmap sid, version := m.version + 1 }

/-- Source smapX.delProxy: asserts presence, deletes, bumps the version. -/
def Smap.delProxy (m : Smap) (pid : String) : Except String Smap :=
  if (m.getProxy pid).isNone then .error "FATAL: proxy is not in smap"
  else .ok { m with pmap := nmDel m.pmap pid, version := m.version + 1 }

/-- Source smapX.putNode: for a proxy, delete any proxy with the same id
(reporting a replacement), insert, and then overwrite the stored flags with
the flags argument (the source assigns nsi.Flags = flags right after
addProxy, through the shared pointer); for a target, same replacement
discipline but the flags argument is never applied. A cross-role id
collision hits the duplicate-daemon-id assertion inside addProxy/addTarget. -/
def Smap.putNode (m : Smap) (nsi : Snode) (flags : SnodeFlags) :
    Except String (Smap × Bool) :=
  match nsi.role with
  | .proxy => do
    let st ←
      if (m.getProxy nsi.id).isSome then do
        let m1 ← m.delProxy nsi.id
        pure (m1, true)
      else pure (m, false)
    let m2 ← st.1.addProxy { nsi with flags := flags }
    pure (m2, st.2)
  | .target => do
    let st ←
      if (m.getTarget nsi.id).isSome then do
        let m1 ← m.delTarget nsi.id
        pure (m1, true)
      else pure (m, false)
    let m2 ← st.1.addTarget nsi
    pure (m2, st.2)

/-- Modelled from the spec: cluster.Smap.IsDuplicateURL returns a node that
collides with the argument, that is, a node with a different identifier
sharing one of the two endpoint URLs (descriptors collide if they share an
identifier or any endpoint URL). -/
def Smap.isDuplicateURL (m : Smap) (nsi : Snode) : Option Snode :=
  List.find?
    (fun osi =>
      (osi.id != nsi.id) &&
      (osi.publicURL == nsi.publicURL || osi.intraURL == nsi.intraURL))
    (m.pmap ++ m.tmap)

/-- Source smapX.handleDuplicateURL: when a duplicate URL is detected, either
fail (del = false) or silently delete the old conflicting descriptor from
this map (del = true). -/
def Smap.handleDuplicateURL (m : Smap) (nsi : Snode) (del : Bool) :
    Except String Smap :=
  match m.isDuplicateURL nsi with
  | none => .ok m
  | some osi =>
    if !del then .error "duplicate URL"
    else
      match osi.role with
      | .proxy => m.delProxy osi.id
      | .target => m.delTarget osi.id

/-- One pass of source smapX.merge over the nodes of one source map: handle
URL duplicates in dst, then insert the node into dst (into Tmap when
intoTargets, else into Pmap) when its id is in neither map of dst,
counting additions. Insertion does not touch the version of dst. -/
def mergeLoop (override intoTargets : Bool) :
    List Snode → Smap → Nat → Except String (Smap × Nat)
  | [], dst, added => .ok (dst, added)
  | si :: rest, dst, added =>
    match dst.handleDuplicateURL si override with
    | .error e => .error e
    | .ok dst1 =>
      if (nmGet dst1.tmap si.id).isNone && (nmGet dst1.pmap si.id).isNone then
        let dst2 :=
          if intoTargets then { dst1 with tmap := nmPut dst1.tmap si }
          else { dst1 with pmap := nmPut dst1.pmap si }
        mergeLoop override intoTargets rest dst2 (added + 1)
      else mergeLoop override intoTargets rest dst1 added

/-- Source smapX.merge: union the nodes of src into dst (targets first, then
proxies), and adopt the uuid and creation time of src when dst has none. -/
def Smap.merge (src dst : Smap) (override : Bool) : Except String (Smap × Nat) :=
  match mergeLoop override true src.tmap dst 0 with
  | .error e => .error e
  | .ok (dst1, a1) =>
    match mergeLoop override false src.pmap dst1 a1 with
    | .error e => .error e
    | .ok (dst2, a2) =>
      if src.uuid != "" && dst2.uuid == "" then
        .ok ({ dst2 with uuid := src.uuid, creationTime := src.creationTime }, a2)
      else .ok (dst2, a2)

/-- Source smapX._applyFlags: store the new flags on the node, reinsert it
into its map (Tmap when the descriptor says target, else Pmap), and bump the
version. -/
def Smap.applyFlags (m : Smap) (si : Snode) (newFlags : SnodeFlags) : Smap :=
  let si2 : Snode := { si with flags := newFlags }
  let m2 :=
    match si.role with
    | .target => { m with tmap := nmPut m.tmap si2 }
    | .proxy => { m with pmap := nmPut m.pmap si2 }
  { m2 with version := m2.version + 1 }

/-- Source smapX.setNodeFlags: or the mask into the flags of the node; setting any
maintenance-mask bit also clears the in-IC flag. The source asserts that the
node exists; the unreachable missing-node case leaves the map unchanged. -/
def Smap.setNodeFlags (m : Smap) (sid : String) (flags : SnodeFlags) : Smap :=
  match m.getNode sid with
  | none => m
  | some si =>
    let newFlags := si.flags.set flags
    let newFlags2 :=
      if flags.isAnySet snodeMaintenanceMask then newFlags.clear snodeIC
      else newFlags
    m.applyFlags si newFlags2

/-- Source smapX.clearNodeFlags: and-not the mask from the flags of the node. -/
def Smap.clearNodeFlags (m : Smap) (id : String) (flags : SnodeFlags) : Smap :=
  match m.getNode id with
  | none => m
  | some si => m.applyFlags si (si.flags.clear flags)

/-- Modelled from the spec: cluster.Smap.DefaultICSize, the information
council budget (suggested 3). -/
def defaultICSize : Nat := 3

/-- Modelled from the spec: cluster.Smap.ICCount, the number of proxies
carrying the in-IC flag. -/
def Smap.icCount (m : Smap) : Nat :=
  List.countP (fun si => si.flags.isSet snodeIC) m.pmap

/-- Source smapX.addIC: set the IC flag on the proxy unless it already
carries it (cluster.Smap.IsIC checks the IC flag of the descriptor). -/
def Smap.addIC (m : Smap) (psi : Snode) : Smap :=
  if psi.flags.isSet snodeIC then m else m.setNodeFlags psi.id snodeIC

/-- Iteration of source smapX._fillIC over the proxy ids of the map being
filled: skip non-electable proxies, add the rest to the IC, and stop as soon
as the budget is reached. Nodes are re-read from the current map at each
step, matching the live pointers the source iterates over. -/
def fillICgo (ids : List String) (m : Smap) : Smap :=
  match ids with
  | [] => m
  | pid :: rest =>
    match m.getProxy pid with
    | none => fillICgo rest m
    | some si =>
      if si.flags.isSet snodeNonElectable then fillICgo rest m
      else
        let m1 := m.addIC si
        if defaultICSize ≤ m1.icCount then m1 else fillICgo rest m1

/-- Source smapX._fillIC: when below the IC budget, select missing members
from the electable proxies up to DefaultICSize. -/
def Smap.fillIC (m : Smap) : Smap :=
  if defaultICSize ≤ m.icCount then m
  else fillICgo (List.map (fun si => si.id) m.pmap) m

/-- Iteration of source smapX.evictIC over the proxies: clear the IC flag of
the first non-primary IC member and stop. -/
def evictICgo (m : Smap) (pid : String) : List Snode → Smap
  | [] => m
  | si :: rest =>
    if si.id == pid || !si.flags.isSet snodeIC then evictICgo m pid rest
    else m.clearNodeFlags si.id snodeIC

/-- Source smapX.evictIC: when over the IC budget, evict one non-primary IC
member. The source reads the id of the primary through a pointer that is non-nil
at every call site. -/
def Smap.evictIC (m : Smap) : Smap :=
  if m.icCount ≤ defaultICSize then m
  else
    evictICgo m
      (match m.primary with | some p => p.id | none => "") m.pmap

/-- Source smapX.staffIC: add the primary to the IC, refresh the primary
reference from the map, fill the IC up to budget, then evict any excess.
The source dereferences the primary pointer, which is non-nil whenever
staffIC runs (only the primary calls it on a valid map); a missing primary
leaves the map unchanged here. -/
def Smap.staffIC (m : Smap) : Smap :=
  match m.primary with
  | none => m
  | some p =>
    let m1 := m.addIC p
    let m2 := { m1 with primary := m1.getNode p.id }
    (m2.fillIC).evictIC

/-- State of smapOwner together with the on-disk artifacts that
smapOwner.persist writes: the published map pointer, the cluster config
file primary URL, and the .ais.smap snapshot file. -/
structure SyncState where
  cur : Option Smap
  diskPrimaryURL : String
  diskSmap : Option Smap
deriving DecidableEq, Repr

/-- Public URL of the primary of the map, as read by smapOwner.persist
(newSmap.Primary.PublicNet.DirectURL; a nil primary would be a panic in the
source and is unreachable behind the validity checks of the callers). -/
def primaryURL (m : Smap) : String :=
  match m.primary with
  | some p => p.publicURL
  | none => ""

/-- Source smapOwner.persist. The two disk writes are modelled by the two
success switches: configOk is the rewrite of the cluster config file with
the new primary URL (its failure is returned, after rolling the in-memory
config back), smapOk is the write of the .ais.smap snapshot (its failure is
only logged; persist still returns nil). -/
def persistS (st : SyncState) (newSmap : Smap) (configOk smapOk : Bool) :
    SyncState × Option String :=
  if !configOk then (st, some "failed writing config file")
  else
    let st1 := { st with diskPrimaryURL := primaryURL newSmap }
    if smapOk then ({ st1 with diskSmap := some newSmap }, none)
    else (st1, none)

/-- Error outcomes of smapOwner.synchronize. -/
inductive SyncErr where
  | invalid
  | downgrade
  | persistFail (msg : String)
deriving DecidableEq, Repr

/-- Source smapOwner.synchronize: reject an invalid map; under the lock,
compare versions with the current map (strictly older yields the downgrade
soft-error, equal is a silent no-op); otherwise persist and, when persist
returns no error, publish. -/
def synchronize (st : SyncState) (newSmap : Smap) (configOk smapOk : Bool) :
    SyncState × Option SyncErr :=
  if !newSmap.isValid then (st, some .invalid)
  else
    match st.cur with
    | some cur =>
      if newSmap.version ≤ cur.version then
        if newSmap.version < cur.version then (st, some .downgrade)
        else (st, none)
      else
        match persistS st newSmap configOk smapOk with
        | (st1, some e) => (st1, some (.persistFail e))
        | (st1, none) => ({ st1 with cur := some newSmap }, none)
    | none =>
      match persistS st newSmap configOk smapOk with
      | (st1, some e) => (st1, some (.persistFail e))
      | (st1, none) => ({ st1 with cur := some newSmap }, none)

/-- Source smapOwner._runPre: under the lock, clone the current map, run the
pre step of the modifier on the clone, persist the clone, and only then publish
it (the post hook is glue outside the claims). An error from pre or from
persist is surfaced and nothing is published. The current map pointer is
non-nil whenever modify runs; the unreachable missing-map case errors out. -/
def runPre (st : SyncState) (pre : Smap → Except String Smap)
    (configOk smapOk : Bool) : SyncState × Except String Smap :=
  match st.cur with
  | none => (st, .error "no current smap")
  | some cur =>
    match pre cur with
    | .error e => (st, .error e)
    | .ok clone =>
      match persistS st clone configOk smapOk with
      | (st1, some e) => (st1, .error ("failed to persist: " ++ e))
      | (st1, none) => ({ st1 with cur := some clone }, .ok clone)

/-- Source smapOwner.modify: run _runPre and surface its error, if any (the
final hook runs outside the lock and is glue outside the claims). -/
def modify (st : SyncState) (pre : Smap → Except String Smap)
    (configOk smapOk : Bool) : SyncState × Option String :=
  match runPre st pre configOk smapOk with
  | (st1, .error e) => (st1, some e)
  | (st1, .ok _) => (st1, none)

/-- Capacity of the listener-bus channel: newSmapListeners makes postCh with
buffer size 8. -/
def postChCap : Nat := 8

/-- State of the smapLis bus visible to a publisher: the running flag and
the contents of the buffered postCh channel. -/
structure SmapLisState where
  running : Bool
  postCh : List Int
deriving DecidableEq, Repr

/-- Outcome of one send attempt by smapLis.notify. A send on a buffered Go
channel completes immediately when the buffer has space and otherwise makes
the sender wait for a receiver, which the blocked outcome records. -/
inductive NotifyOutcome where
  | assertFailed
  | skipped
  | sent (s : SmapLisState)
  | blocked
deriving DecidableEq, Repr

/-- Source smapLis.notify: assert ver is non-negative; when the bus is
running, send the version on postCh (an unconditional channel send — it
enqueues when the buffer is below capacity and blocks the sender when the
buffer is full); when not running, drop the notification. -/
def smapLisNotify (s : SmapLisState) (ver : Int) : NotifyOutcome :=
  if ver < 0 then .assertFailed
  else if s.running then
    if s.postCh.length < postChCap then .sent { s with postCh := s.postCh ++ [ver] }
    else .blocked
  else .skipped

/-- The exactly-once state of one notification listener
(notifListenerBase): the tfin timestamp (0 while running) and a count of
how many times the user callback f has actually been invoked. -/
structure NLFin where
  tfin : Nat
  invoked : Nat
deriving DecidableEq, Repr

/-- Source notifListenerBase.callback at one terminal event carrying the
timestamp now: the tfin CAS from 0 guards the body; on success the
user-supplied callback runs and tfin is stored; a second attempt finds tfin
non-zero and does nothing. -/
def callbackStep (nl : NLFin) (now : Nat) : NLFin :=
  if nl.tfin = 0 then { tfin := now, invoked := nl.invoked + 1 } else nl

/-- A listener hit by a sequence of terminal events (push report completing
the refcount, housekeeping pull finding finished or aborted, a 404 at a
notifier, a membership change), each reduced to its callback invocation
with its timestamp. -/
def runEvents (nl : NLFin) (nows : List Nat) : NLFin :=
  List.foldl callbackStep nl nows

/-- Refcount state of one listener as seen by notifs.handleMsg: the srcs map
(per expected notifier id, true while the slot still holds the descriptor
and false once set to nil by a report), the refcount rc, and the per-source
error map. -/
structure NLSrcs where
  srcs : List (String × Bool)
  rc : Nat
  errs : List (String × String)
deriving DecidableEq, Repr

/-- Go map read srcs[tid] on the per-listener sources: the slot of the
first entry with the given id. -/
def findSlot : List (String × Bool) → String → Option Bool
  | [], _ => none
  | (id, b) :: rest, tid => if id == tid then some b else findSlot rest tid

/-- Set the slot of the first entry with the given id to false (the source statement srcs[tid] = nil; keys stay in the map). -/
def setSlotNil : List (String × Bool) → String → List (String × Bool)
  | [], _ => []
  | (id, b) :: rest, tid =>
    if id == tid then (id, false) :: rest else (id, b) :: setSlotNil rest tid

/-- Outcome of notifs.handleMsg. -/
inductive HandleMsgRes where
  | unknown
  | duplicate
  | progressed (done : Bool)
deriving DecidableEq, Repr

/-- Source notifs.handleMsg: a report from an id outside srcs is a 404-class
error; a report from an id whose slot is already nil is the duplicate error
and changes nothing; otherwise record the per-source error if any, nil the
slot, bump rc, and the listener is done once rc reaches the number of
expected sources. -/
def handleMsg (nl : NLSrcs) (tid : String) (srcErr : Option String) :
    NLSrcs × HandleMsgRes :=
  match findSlot nl.srcs tid with
  | none => (nl, .unknown)
  | some false => (nl, .duplicate)
  | some true =>
    let errs1 :=
      match srcErr with
      | some e => nl.errs ++ [(tid, e)]
      | none => nl.errs
    let rc1 := nl.rc + 1
    ({ srcs := setSlotNil nl.srcs tid, rc := rc1, errs := errs1 },
     .progressed (nl.srcs.length ≤ rc1))

/-- Bucket metadata: a version and the set of buckets, with the same
versioning discipline as the Smap (add and delete bump the version —
modelled from the spec for the bucketMD methods that live outside the
embedded sources). -/
structure BMD where
  version : Nat
  buckets : List String
deriving DecidableEq, Repr

/-- Phases broadcast to the targets by the transaction client. -/
inductive TxnPhase where
  | begin
  | abort
  | commit
deriving DecidableEq, Repr

/-- Result of one create-bucket run: the bucket metadata after the call, the
error surfaced to the caller, and the phases broadcast to the targets in
order. -/
structure TxnResult where
  bmd : BMD
  err : Option String
  bcasts : List TxnPhase
deriving DecidableEq, Repr

/-- First error in the results channel of a broadcast, in arrival order (the
source loops over the results and acts on the first non-nil error). -/
def firstErr (results : List (Option String)) : Option String :=
  (results.filterMap id).head?

/-- Source proxyrunner.undoCreateBucket: clone, delete the bucket (a missing
bucket aborts the rollback), publish and re-metasync. -/
def undoCreateBucket (bmd : BMD) (bck : String) : BMD :=
  if bmd.buckets.contains bck then
    { version := bmd.version + 1, buckets := bmd.buckets.erase bck }
  else bmd

/-- Source proxyrunner.createBucket, driven by the per-target responses of
the begin, commit and abort broadcasts: check non-existence under the BMD
lock; broadcast begin and, on the first error, broadcast abort (its results
are discarded) and surface the begin error with the BMD untouched; otherwise
add the bucket to a clone, publish and metasync it, and broadcast commit,
rolling back through undoCreateBucket on a commit error. -/
def createBucket (bmd : BMD) (bck : String)
    (beginRes commitRes abortRes : List (Option String)) : TxnResult :=
  if bmd.buckets.contains bck then
    { bmd := bmd, err := some "bucket already exists", bcasts := [] }
  else
    match firstErr beginRes with
    | some e =>
      let _ := abortRes
      { bmd := bmd, err := some e, bcasts := [.begin, .abort] }
    | none =>
      let clone : BMD := { version := bmd.version + 1, buckets := bck :: bmd.buckets }
      match firstErr commitRes with
      | some e =>
        { bmd := undoCreateBucket clone bck, err := some e,
          bcasts := [.begin, .commit] }
      | none => { bmd := clone, err := none, bcasts := [.begin, .commit] }

/-- Both maps carry descriptors of their own role: Pmap holds proxies and
Tmap holds targets (spec data-model, invariant 2 companion). -/
def rolesOK (m : Smap) : Prop :=
  (∀ n ∈ m.tmap, n.role = NodeRole.target) ∧ (∀ n ∈ m.pmap, n.role = NodeRole.proxy)

/-- Identifier disjointness of Pmap and Tmap (spec invariant 2). -/
def mapsDisjoint (m : Smap) : Prop :=
  ∀ n ∈ m.tmap, nmGet m.pmap n.id = none

/-- A proxy with this id carries the in-IC flag in the map. -/
def icIn (m : Smap) (id : String) : Prop :=
  ∃ n ∈ m.pmap, n.id = id ∧ n.flags.isSet snodeIC = true

/-- No node of the map carries a maintenance-mask bit together with the
in-IC flag (spec invariant 5). -/
def icMaintOK (m : Smap) : Bool :=
  List.all (m.pmap ++ m.tmap)
    (fun n => !(n.flags.isAnySet snodeMaintenanceMask && n.flags.isSet snodeIC))

/-- Number of already-reported (nil) slots in a srcs map. -/
def countNil (srcs : List (String × Bool)) : Nat :=
  List.countP (fun p => !p.2) srcs

/-- Electable proxy p0 with no flags. -/
def nodeP0 : Snode := ⟨"p0", .proxy, "pub0", "intra0", {}⟩

/-- Electable proxy p1 that is in maintenance state. -/
def nodeP1m : Snode := ⟨"p1", .proxy, "pub1", "intra1", { maintenance := true }⟩

/-- Target t1 with no flags. -/
def nodeT1 : Snode := ⟨"t1", .target, "pubt1", "intrat1", {}⟩

/-- Merge source: version 10, uuid u, one proxy. -/
def exA : Smap := ⟨10, "u", "c", [nodeP0], [], some nodeP0⟩

/-- Merge destination: version 2, same uuid and node as exA. -/
def exB : Smap := ⟨2, "u", "c", [nodeP0], [], some nodeP0⟩

/-- Valid map whose proxies are the electable p0 (primary) and the electable
in-maintenance p1; nobody is in the IC yet. -/
def ex6 : Smap := ⟨1, "u", "c", [nodeP0, nodeP1m], [], some nodeP0⟩

/-- Owner state for the persistence scenarios: current and on-disk map both
at version 1. -/
def c4m0 : Smap := ⟨1, "u", "c", [nodeP0], [], some nodeP0⟩

/-- A pre step that bumps the clone version and succeeds. -/
def c4pre : Smap → Except String Smap :=
  fun c => .ok { c with version := c.version + 1 }

/-- Owner state holding c4m0 in memory and on disk. -/
def c4st : SyncState := ⟨some c4m0, "orig", some c4m0⟩

/-- A running listener bus whose postCh buffer is full (8 entries). -/
def c9full : SmapLisState := ⟨true, [0, 1, 2, 3, 4, 5, 6, 7]⟩

/-! Helper lemmas about the id-keyed node maps. -/

theorem nmGet_id {l : NodeMap} {id : String} {x : Snode}
    (h : nmGet l id = some x) : x.id = id := by
  have hp := List.find?_some h
  simpa using hp

theorem nmGet_mem {l : NodeMap} {id : String} {x : Snode}
    (h : nmGet l id = some x) : x ∈ l :=
  List.mem_of_find?_eq_some h

theorem nmGet_nmPut_self {l : NodeMap} {s : Snode} {id : String}
    (h : s.id = id) : nmGet (nmPut l s) id = some s := by
  induction l with
  | nil => simp [nmPut, nmGet, h]
  | cons x xs ih =>
    by_cases hx : x.id = s.id
    · simp [nmPut, hx, nmGet, h]
    · have hx2 : (x.id == s.id) = false := by simp [hx]
      have hx3 : (x.id == id) = false := by
        simp only [h] at hx
        simp [hx]
      simp only [nmPut, hx2, Bool.false_eq_true, if_false]
      simpa [nmGet, hx3] using ih

theorem nmGet_nmPut_ne {l : NodeMap} {s : Snode} {id : String}
    (h : id ≠ s.id) : nmGet (nmPut l s) id = nmGet l id := by
  have hsym : ¬ s.id = id := fun e => h e.symm
  induction l with
  | nil =>
    have : (s.id == id) = false := by simp [hsym]
    simp [nmPut, nmGet, this]
  | cons x xs ih =>
    by_cases hx : x.id = s.id
    · have hs : (s.id == id) = false := by simp [hsym]
      have hxid : (x.id == id) = false := by simp [hx, hsym]
      simp [nmPut, hx, nmGet, hs, hxid]
    · have hx2 : (x.id == s.id) = false := by simp [hx]
      simp only [nmPut, hx2, Bool.false_eq_true, if_false]
      by_cases hxi : x.id = id
      · simp [nmGet, hxi]
      · have hxi2 : (x.id == id) = false := by simp [hxi]
        simpa [nmGet, hxi2] using ih

theorem nmPut_mem {l : NodeMap} {s x : Snode}
    (h : x ∈ nmPut l s) : x = s ∨ x ∈ l := by
  induction l with
  | nil => simpa [nmPut] using h
  | cons y ys ih =>
    by_cases hy : y.id = s.id
    · simp only [nmPut, hy, beq_self_eq_true, if_true, List.mem_cons] at h
      rcases h with h3 | h3
      · exact Or.inl h3
      · exact Or.inr (List.mem_cons_of_mem _ h3)
    · have hy2 : (y.id == s.id) = false := by simp [hy]
      simp only [nmPut, hy2, Bool.false_eq_true, if_false, List.mem_cons] at h
      rcases h with h3 | h3
      · exact Or.inr (by simp [h3])
      · rcases ih h3 with h2 | h2
        · exact Or.inl h2
        · exact Or.inr (List.mem_cons_of_mem _ h2)

theorem nmGet_nmDel_self (l : NodeMap) (id : String) :
    nmGet (nmDel l id) id = none := by
  induction l with
  | nil => simp [nmDel, nmGet]
  | cons x xs ih =>
    by_cases hx : x.id = id
    · have hbe : (x.id != id) = false := by simp [hx]
      simp only [nmDel, List.filter_cons, hbe, Bool.false_eq_true, if_false]
      simpa [nmDel] using ih
    · have hbe : (x.id != id) = true := by simp [hx]
      simp only [nmDel, List.filter_cons, hbe, if_true]
      rw [nmGet, List.find?_cons_of_neg]
      · simp only [nmGet, nmDel] at ih
        exact ih
      · simp [hx]

/-! Claim C1: create-bucket begin failure. -/

/-- Claim C1. In proxyrunner.createBucket, when a target answers the begin
broadcast with an error, the coordinator broadcasts abort, surfaces that
begin error to the caller, leaves the bucket metadata exactly as before the
call, and the abort results are discarded (the outcome does not depend on
them). -/
theorem createBucket_begin_failure (bmd : BMD) (bck : String) (e : String)
    (beginRes commitRes abortRes abortRes2 : List (Option String))
    (hpre : bmd.buckets.contains bck = false)
    (hb : firstErr beginRes = some e) :
    createBucket bmd bck beginRes commitRes abortRes =
      { bmd := bmd, err := some e, bcasts := [.begin, .abort] } ∧
    createBucket bmd bck beginRes commitRes abortRes =
      createBucket bmd bck beginRes commitRes abortRes2 := by
  have hpre2 : bck ∉ bmd.buckets := by simpa using hpre
  constructor
  · simp [createBucket, hpre2, hb]
  · simp [createBucket, hpre2, hb]

/-- Witness for C1: empty BMD, bucket foo, second target answers begin with
an error; the call surfaces it, broadcasts begin then abort, and leaves the
BMD at version 0 with no buckets, whatever the abort responses were. -/
theorem createBucket_begin_failure_witness :
    (BMD.mk 0 []).buckets.contains "foo" = false ∧
    firstErr [none, some "begin 500"] = some "begin 500" ∧
    (createBucket ⟨0, []⟩ "foo" [none, some "begin 500"] [] [some "x"] =
       { bmd := ⟨0, []⟩, err := some "begin 500", bcasts := [.begin, .abort] } ∧
     createBucket ⟨0, []⟩ "foo" [none, some "begin 500"] [] [some "x"] =
       createBucket ⟨0, []⟩ "foo" [none, some "begin 500"] [] [none, none]) :=
  ⟨by decide, by decide,
   createBucket_begin_failure ⟨0, []⟩ "foo" "begin 500"
     [none, some "begin 500"] [] [some "x"] [none, none]
     (by decide) (by decide)⟩

/-! Claim C2: the user callback runs exactly once. -/

theorem runEvents_stable (nl : NLFin) (h : nl.tfin ≠ 0) (nows : List Nat) :
    runEvents nl nows = nl := by
  induction nows with
  | nil => rfl
  | cons t rest ih =>
    have hstep : callbackStep nl t = nl := by
      simp [callbackStep, h]
    simpa [runEvents, hstep] using ih

/-- Claim C2. Starting from a running listener (tfin = 0, callback never
invoked), any non-empty sequence of terminal events with positive
timestamps invokes the user callback exactly once: the tfin CAS suppresses
every later attempt. -/
theorem notif_callback_exactly_once (nows : List Nat) (h1 : nows ≠ [])
    (h2 : ∀ t ∈ nows, 0 < t) :
    (runEvents ⟨0, 0⟩ nows).invoked = 1 := by
  cases nows with
  | nil => exact absurd rfl h1
  | cons t rest =>
    have ht : 0 < t := h2 t (by simp)
    have hstep : callbackStep ⟨0, 0⟩ t = ⟨t, 1⟩ := by
      simp [callbackStep]
    have htf : (⟨t, 1⟩ : NLFin).tfin ≠ 0 := by
      simp [Nat.pos_iff_ne_zero.mp ht]
    calc (runEvents ⟨0, 0⟩ (t :: rest)).invoked
        = (runEvents ⟨t, 1⟩ rest).invoked := by simp [runEvents, hstep]
      _ = 1 := by rw [runEvents_stable _ htf]

/-- Witness for C2: two terminal events (a push completion at time 5 and a
housekeeping abort at time 7) yield exactly one callback invocation. -/
theorem notif_callback_exactly_once_witness :
    ([5, 7] : List Nat) ≠ [] ∧ (∀ t ∈ ([5, 7] : List Nat), 0 < t) ∧
    (runEvents ⟨0, 0⟩ [5, 7]).invoked = 1 :=
  ⟨by decide, by decide,
   notif_callback_exactly_once [5, 7] (by decide) (by decide)⟩

/-! Claim C9: the listener bus send. -/

/-- Counterexample to claim C9 as stated: with the bus running and the
8-slot postCh buffer full, smapLisNotify performs an unconditional channel
send, so the sender blocks; the notification is not dropped (the outcome is
not a send that leaves the queue unchanged). -/
theorem notify_blocks_when_queue_full :
    smapLisNotify c9full 8 = .blocked ∧
    smapLisNotify c9full 8 ≠ .sent c9full := by
  constructor
  · rfl
  · decide

/-- Amended claim C9. The bus queue is bounded (8 slots) and a send never
overfills it; a notification is dropped only when the bus is not running;
when the bus runs, the send enqueues if the buffer has space and otherwise
the sender blocks until the worker drains, rather than dropping. -/
theorem notify_bounded_semantics (s : SmapLisState) (ver : Int) (h : 0 ≤ ver) :
    (s.running = false → smapLisNotify s ver = .skipped) ∧
    (s.running = true → s.postCh.length < postChCap →
       smapLisNotify s ver = .sent { s with postCh := s.postCh ++ [ver] }) ∧
    (s.running = true → postChCap ≤ s.postCh.length →
       smapLisNotify s ver = .blocked) ∧
    (∀ s2, smapLisNotify s ver = .sent s2 → s2.postCh.length ≤ postChCap) := by
  have hnot : ¬ ver < 0 := not_lt.mpr h
  refine ⟨?_, ?_, ?_, ?_⟩
  · intro hr; simp [smapLisNotify, hnot, hr]
  · intro hr hlen; simp [smapLisNotify, hnot, hr, hlen]
  · intro hr hlen
    simp [smapLisNotify, hnot, hr, not_lt.mpr hlen]
  · intro s2 hs
    by_cases hr : s.running
    · by_cases hlen : s.postCh.length < postChCap
      · simp only [smapLisNotify, hnot, if_false, hr, if_true, hlen] at hs
        cases hs
        simp only [postChCap] at hlen ⊢
        simp only [List.length_append, List.length_cons, List.length_nil]
        omega
      · simp [smapLisNotify, hnot, hr, hlen] at hs
    · simp [smapLisNotify, hnot, hr] at hs

/-- Witness for C9 (amended): a running bus with two queued versions accepts
version 5 by enqueueing it, and a sent outcome never exceeds the bound. -/
theorem notify_bounded_semantics_witness :
    (0 : Int) ≤ 5 ∧
    ((SmapLisState.mk true [1, 2]).running = true →
       (SmapLisState.mk true [1, 2]).postCh.length < postChCap →
       smapLisNotify ⟨true, [1, 2]⟩ 5 = .sent ⟨true, [1, 2, 5]⟩) :=
  ⟨by decide, (notify_bounded_semantics ⟨true, [1, 2]⟩ 5 (by decide)).2.1⟩

/-! Helper lemmas about the add and delete methods of smapX. -/

theorem addTarget_absent (tsi : Snode) {m : Smap}
    (h : m.containsID tsi.id = false) :
    m.addTarget tsi =
      .ok { m with tmap := nmPut m.tmap tsi, version := m.version + 1 } := by
  simp [Smap.addTarget, h]

theorem addTarget_present (tsi : Snode) {m : Smap}
    (h : m.containsID tsi.id = true) :
    m.addTarget tsi = .error "FATAL: duplicate daemon ID" := by
  simp [Smap.addTarget, h]

theorem addProxy_absent (psi : Snode) {m : Smap}
    (h : m.containsID psi.id = false) :
    m.addProxy psi =
      .ok { m with pmap := nmPut m.pmap psi, version := m.version + 1 } := by
  simp [Smap.addProxy, h]

theorem addProxy_present (psi : Snode) {m : Smap}
    (h : m.containsID psi.id = true) :
    m.addProxy psi = .error "FATAL: duplicate daemon ID" := by
  simp [Smap.addProxy, h]

theorem delTarget_present {m : Smap} {sid : String}
    (h : (m.getTarget sid).isSome = true) :
    m.delTarget sid =
      .ok { m with tmap := nmDel m.tmap sid, version := m.version + 1 } := by
  have hn : (m.getTarget sid).isNone = false := by
    cases hx : m.getTarget sid <;> simp [hx] at h ⊢
  simp [Smap.delTarget, hn]

theorem delProxy_present {m : Smap} {pid : String}
    (h : (m.getProxy pid).isSome = true) :
    m.delProxy pid =
      .ok { m with pmap := nmDel m.pmap pid, version := m.version + 1 } := by
  have hn : (m.getProxy pid).isNone = false := by
    cases hx : m.getProxy pid <;> simp [hx] at h ⊢
  simp [Smap.delProxy, hn]

/-! Claim C8: duplicate notification reports. -/

theorem setSlotNil_length (l : List (String × Bool)) (tid : String) :
    (setSlotNil l tid).length = l.length := by
  induction l with
  | nil => rfl
  | cons p rest ih =>
    obtain ⟨id, b⟩ := p
    by_cases hid : (id == tid) = true
    · simp [setSlotNil, hid]
    · simp only [Bool.not_eq_true] at hid
      simp [setSlotNil, hid, ih]

theorem countNil_le_length (l : List (String × Bool)) :
    countNil l ≤ l.length :=
  List.countP_le_length _

theorem countNil_setSlotNil {l : List (String × Bool)} {tid : String}
    (h : findSlot l tid = some true) :
    countNil (setSlotNil l tid) = countNil l + 1 := by
  induction l with
  | nil => simp [findSlot] at h
  | cons p rest ih =>
    obtain ⟨id, b⟩ := p
    by_cases hid : (id == tid) = true
    · simp only [findSlot, hid, if_true, Option.some.injEq] at h
      subst h
      simp [setSlotNil, hid, countNil, List.countP_cons]
    · simp only [Bool.not_eq_true] at hid
      simp only [findSlot, hid, Bool.false_eq_true, if_false] at h
      have ih2 := ih h
      simp only [setSlotNil, hid, Bool.false_eq_true, if_false]
      simp only [countNil, List.countP_cons] at ih2 ⊢
      omega

/-- Claim C8. A replayed completion report from a source whose slot is
already nil is a no-op on the listener (the duplicate outcome returns the
state unchanged and is not done); and whenever the refcount equals the
number of reported slots, handleMsg keeps that equality, keeps the source
set size, and the refcount never exceeds the number of expected sources. -/
theorem handleMsg_duplicate_noop_rc_bound (nl : NLSrcs) (tid : String)
    (srcErr : Option String) (hrc : nl.rc = countNil nl.srcs) :
    (findSlot nl.srcs tid = some false →
       handleMsg nl tid srcErr = (nl, .duplicate)) ∧
    (handleMsg nl tid srcErr).1.rc = countNil (handleMsg nl tid srcErr).1.srcs ∧
    (handleMsg nl tid srcErr).1.rc ≤ (handleMsg nl tid srcErr).1.srcs.length ∧
    (handleMsg nl tid srcErr).1.srcs.length = nl.srcs.length := by
  refine ⟨fun hdup => by simp [handleMsg, hdup], ?_⟩
  cases hf : findSlot nl.srcs tid with
  | none =>
    simp only [handleMsg, hf]
    exact ⟨hrc, hrc ▸ countNil_le_length _, by simp⟩
  | some b =>
    cases b with
    | false =>
      simp only [handleMsg, hf]
      exact ⟨hrc, hrc ▸ countNil_le_length _, by simp⟩
    | true =>
      simp only [handleMsg, hf]
      refine ⟨?_, ?_, ?_⟩
      · simp [countNil_setSlotNil hf, hrc]
      · simp only [setSlotNil_length]
        have h1 := countNil_le_length (setSlotNil nl.srcs tid)
        have h2 := countNil_setSlotNil hf
        simp only [setSlotNil_length] at h1
        omega
      · simp [setSlotNil_length]

/-- Witness for C8: a listener expecting t1 and t2 where t1 already
reported (slot nil, rc = 1); a replay from t1 is the duplicate no-op. -/
theorem handleMsg_duplicate_noop_rc_bound_witness :
    (NLSrcs.mk [("t1", false), ("t2", true)] 1 []).rc =
      countNil (NLSrcs.mk [("t1", false), ("t2", true)] 1 []).srcs ∧
    findSlot [("t1", false), ("t2", true)] "t1" = some false ∧
    handleMsg ⟨[("t1", false), ("t2", true)], 1, []⟩ "t1" none =
      (⟨[("t1", false), ("t2", true)], 1, []⟩, .duplicate) :=
  ⟨by decide, by decide,
   (handleMsg_duplicate_noop_rc_bound ⟨[("t1", false), ("t2", true)], 1, []⟩
     "t1" none (by decide)).1 (by decide)⟩

/-! Claim C10: putNode ignores the flags argument for targets. -/

/-- Claim C10. When the descriptor is a target, putNode never consults the
flags argument: the call result is identical for any two flag values, and
on success the stored target descriptor is exactly the argument descriptor
with its own flags. -/
theorem putNode_target_ignores_flags (m : Smap) (nsi : Snode)
    (f1 f2 : SnodeFlags) (h : nsi.role = NodeRole.target) :
    m.putNode nsi f1 = m.putNode nsi f2 ∧
    (∀ m2 ex, m.putNode nsi f1 = .ok (m2, ex) →
       m2.getTarget nsi.id = some nsi) := by
  constructor
  · unfold Smap.putNode
    rw [h]
  · intro m2 ex hok
    unfold Smap.putNode at hok
    rw [h] at hok
    by_cases hs : (m.getTarget nsi.id).isSome = true
    · rw [if_pos hs, delTarget_present hs] at hok
      simp only [bind, Except.bind, pure, Except.pure] at hok
      cases haddt : Smap.addTarget
          { m with tmap := nmDel m.tmap nsi.id, version := m.version + 1 } nsi with
      | error e => rw [haddt] at hok; cases hok
      | ok m2a =>
        rw [haddt] at hok
        simp only [Except.ok.injEq, Prod.mk.injEq] at hok
        obtain ⟨hm2, _⟩ := hok
        subst hm2
        by_cases hc : Smap.containsID
            { m with tmap := nmDel m.tmap nsi.id, version := m.version + 1 } nsi.id = true
        · rw [addTarget_present nsi hc] at haddt; cases haddt
        · rw [addTarget_absent nsi (by simpa using hc)] at haddt
          injection haddt with h2
          subst h2
          exact nmGet_nmPut_self rfl
    · rw [if_neg hs] at hok
      simp only [bind, Except.bind, pure, Except.pure] at hok
      cases haddt : m.addTarget nsi with
      | error e => rw [haddt] at hok; cases hok
      | ok m2a =>
        rw [haddt] at hok
        simp only [Except.ok.injEq, Prod.mk.injEq] at hok
        obtain ⟨hm2, _⟩ := hok
        subst hm2
        by_cases hc : m.containsID nsi.id = true
        · rw [addTarget_present nsi hc] at haddt; cases haddt
        · rw [addTarget_absent nsi (by simpa using hc)] at haddt
          injection haddt with h2
          subst h2
          exact nmGet_nmPut_self rfl

/-- Witness for C10: joining target t1 into a map holding only proxy p0
gives the same map for two different flag arguments, and stores t1 with its
own (empty) flags. -/
theorem putNode_target_ignores_flags_witness :
    nodeT1.role = NodeRole.target ∧
    (Smap.putNode ⟨1, "u", "c", [nodeP0], [], some nodeP0⟩ nodeT1 snodeIC =
       Smap.putNode ⟨1, "u", "c", [nodeP0], [], some nodeP0⟩ nodeT1
         snodeMaintenanceMask) ∧
    (∀ m2 ex,
       Smap.putNode ⟨1, "u", "c", [nodeP0], [], some nodeP0⟩ nodeT1 snodeIC =
         .ok (m2, ex) → m2.getTarget nodeT1.id = some nodeT1) :=
  ⟨rfl,
   (putNode_target_ignores_flags ⟨1, "u", "c", [nodeP0], [], some nodeP0⟩
     nodeT1 snodeIC snodeMaintenanceMask rfl).1,
   (putNode_target_ignores_flags ⟨1, "u", "c", [nodeP0], [], some nodeP0⟩
     nodeT1 snodeIC snodeMaintenanceMask rfl).2⟩

/-! Claim C3: smapOwner.synchronize. -/

/-- Claim C3. For a call synchronize(newMap) with a current map: an invalid
newMap is rejected with the invalid error and nothing changes; a strictly
older newMap yields the distinguished downgrade soft-error with neither
persistence nor publication; an equal version is a no-op without error; a
strictly newer version (with both disk writes succeeding) persists the map
to disk and publishes it. -/
theorem synchronize_cases (st : SyncState) (nm cur : Smap) (cOk sOk : Bool)
    (hcur : st.cur = some cur) :
    (nm.isValid = false → synchronize st nm cOk sOk = (st, some .invalid)) ∧
    (nm.isValid = true → nm.version < cur.version →
       synchronize st nm cOk sOk = (st, some .downgrade)) ∧
    (nm.isValid = true → nm.version = cur.version →
       synchronize st nm cOk sOk = (st, none)) ∧
    (nm.isValid = true → cur.version < nm.version →
       synchronize st nm true true =
         (⟨some nm, primaryURL nm, some nm⟩, none)) := by
  refine ⟨?_, ?_, ?_, ?_⟩
  · intro hv
    simp [synchronize, hv]
  · intro hv hlt
    simp [synchronize, hv, hcur, hlt, Nat.le_of_lt hlt]
  · intro hv heq
    simp [synchronize, hv, hcur, heq]
  · intro hv hgt
    have hnle : ¬ nm.version ≤ cur.version := not_le.mpr hgt
    simp [synchronize, hv, hcur, hnle, persistS]

/-- Map at version 10 held by the owner in the downgrade scenario. -/
def c3cur : Smap := ⟨10, "u", "c", [nodeP0], [], some nodeP0⟩

/-- Arriving map at version 8 (valid, same cluster). -/
def c3nm8 : Smap := ⟨8, "u", "c", [nodeP0], [], some nodeP0⟩

/-- Arriving map at version 20 (valid, same cluster). -/
def c3nm20 : Smap := ⟨20, "u", "c", [nodeP0], [], some nodeP0⟩

/-- Owner state holding c3cur in memory and on disk. -/
def c3st : SyncState := ⟨some c3cur, "pub0", some c3cur⟩

/-- Witness for C3: with the owner at version 10, version 8 is rejected
with the downgrade soft-error and neither memory nor disk changes, while
version 20 is persisted and published. -/
theorem synchronize_cases_witness :
    c3st.cur = some c3cur ∧ Smap.isValid c3nm8 = true ∧
    c3nm8.version < c3cur.version ∧
    synchronize c3st c3nm8 true true = (c3st, some .downgrade) ∧
    c3cur.version < c3nm20.version ∧
    synchronize c3st c3nm20 true true =
      (⟨some c3nm20, primaryURL c3nm20, some c3nm20⟩, none) :=
  ⟨rfl, by decide, by decide,
   (synchronize_cases c3st c3nm8 c3cur true true rfl).2.1 (by decide) (by decide),
   by decide,
   (synchronize_cases c3st c3nm20 c3cur true true rfl).2.2.2 (by decide)
     (by decide)⟩

/-! Claim C4: persistence failures during a map-owner modify. -/

/-- Counterexample to claim C4 as stated: with the cluster config write
succeeding but the .ais.smap snapshot write failing, modify surfaces no
error and still publishes the clone (the in-memory map changes while the
on-disk snapshot keeps the old version) — the snapshot write failure is
only logged by smapOwner.persist. -/
theorem modify_smap_snapshot_failure_still_publishes :
    modify c4st c4pre true false =
      (⟨some ⟨2, "u", "c", [nodeP0], [], some nodeP0⟩, "pub0", some c4m0⟩,
       none) ∧
    (modify c4st c4pre true false).1.cur ≠ c4st.cur ∧
    (modify c4st c4pre true false).2 = none ∧
    (modify c4st c4pre true false).1.diskSmap ≠
      (modify c4st c4pre true false).1.cur := by
  refine ⟨by decide, by decide, by decide, by decide⟩

/-- Amended claim C4. During a map-owner modify, a failure of the cluster
config file write is fatal to the attempt: the error is surfaced and the
clone is not published (state fully unchanged). A failure of the .ais.smap
snapshot write, however, is only logged: modify publishes the clone and
returns no error, leaving the stale snapshot on disk. -/
theorem modify_persist_failure_semantics (st : SyncState)
    (pre : Smap → Except String Smap) (cur clone : Smap) (sOk : Bool)
    (hcur : st.cur = some cur) (hpre : pre cur = .ok clone) :
    (∃ e, modify st pre false sOk = (st, some e)) ∧
    modify st pre true sOk =
      ({ st with
          cur := some clone
          diskPrimaryURL := primaryURL clone
          diskSmap := (if sOk then some clone else st.diskSmap) }, none) := by
  constructor
  · exact ⟨"failed to persist: failed writing config file",
      by simp [modify, runPre, hcur, hpre, persistS]⟩
  · cases sOk <;> simp [modify, runPre, hcur, hpre, persistS]

/-- Witness for C4 (amended): with the concrete owner state, a config write
failure leaves everything unchanged with an error, and a successful config
write with a failing snapshot write publishes the bumped clone. -/
theorem modify_persist_failure_semantics_witness :
    c4st.cur = some c4m0 ∧ c4pre c4m0 = .ok { c4m0 with version := 2 } ∧
    ((∃ e, modify c4st c4pre false false = (c4st, some e)) ∧
     modify c4st c4pre true false =
       ({ c4st with
           cur := some { c4m0 with version := 2 }
           diskPrimaryURL := primaryURL { c4m0 with version := 2 }
           diskSmap := (if false then some { c4m0 with version := 2 }
             else c4st.diskSmap) }, none)) :=
  ⟨rfl, rfl,
   modify_persist_failure_semantics c4st c4pre c4m0
     { c4m0 with version := 2 } false rfl rfl⟩

/-! Claim C7: putNode replacement and duplicate-id semantics. -/

/-- Claim C7. For putNode(desc, flags): when a node with the same id exists
under the same role, it is removed first and the caller is told it was a
replacement (the version is incremented by the removal and the insertion);
when the id is fresh on both maps, the node is added with one version bump
and no replacement is reported; when the id already exists under the other
role, the call fails with the duplicate daemon-id error. -/
theorem putNode_spec (m : Smap) (nsi : Snode) (flags : SnodeFlags) :
    (nsi.role = NodeRole.proxy → (m.getProxy nsi.id).isSome = true →
       m.getTarget nsi.id = none →
       m.putNode nsi flags =
         .ok ({ m with
                 pmap := nmPut (nmDel m.pmap nsi.id) { nsi with flags := flags }
                 version := m.version + 1 + 1 }, true)) ∧
    (nsi.role = NodeRole.target → (m.getTarget nsi.id).isSome = true →
       m.getProxy nsi.id = none →
       m.putNode nsi flags =
         .ok ({ m with
                 tmap := nmPut (nmDel m.tmap nsi.id) nsi
                 version := m.version + 1 + 1 }, true)) ∧
    (nsi.role = NodeRole.proxy → m.getProxy nsi.id = none →
       m.getTarget nsi.id = none →
       m.putNode nsi flags =
         .ok ({ m with
                 pmap := nmPut m.pmap { nsi with flags := flags }
                 version := m.version + 1 }, false)) ∧
    (nsi.role = NodeRole.target → m.getTarget nsi.id = none →
       m.getProxy nsi.id = none →
       m.putNode nsi flags =
         .ok ({ m with
                 tmap := nmPut m.tmap nsi
                 version := m.version + 1 }, false)) ∧
    (nsi.role = NodeRole.proxy → (m.getTarget nsi.id).isSome = true →
       ∃ e, m.putNode nsi flags = .error e) ∧
    (nsi.role = NodeRole.target → (m.getProxy nsi.id).isSome = true →
       ∃ e, m.putNode nsi flags = .error e) := by
  refine ⟨?_, ?_, ?_, ?_, ?_, ?_⟩
  · intro h hp ht
    have ht2 : nmGet m.tmap nsi.id = none := ht
    have hdel := delProxy_present hp
    have hc : Smap.containsID
        { m with pmap := nmDel m.pmap nsi.id, version := m.version + 1 }
        nsi.id = false := by
      simp [Smap.containsID, Smap.getTarget, Smap.getProxy, nmGet_nmDel_self,
        ht2]
    have hadd := addProxy_absent { nsi with flags := flags } hc
    rw [h] at hadd
    unfold Smap.putNode
    rw [h]
    simp [hp, hdel, hadd, bind, Except.bind, pure, Except.pure]
  · intro h hp ht
    have ht2 : nmGet m.pmap nsi.id = none := ht
    have hdel := delTarget_present hp
    have hc : Smap.containsID
        { m with tmap := nmDel m.tmap nsi.id, version := m.version + 1 }
        nsi.id = false := by
      simp [Smap.containsID, Smap.getTarget, Smap.getProxy, nmGet_nmDel_self,
        ht2]
    have hadd := addTarget_absent nsi hc
    unfold Smap.putNode
    rw [h]
    simp [hp, hdel, hadd, bind, Except.bind, pure, Except.pure]
  · intro h hp ht
    have hp2 : nmGet m.pmap nsi.id = none := hp
    have ht2 : nmGet m.tmap nsi.id = none := ht
    have hc : m.containsID nsi.id = false := by
      simp [Smap.containsID, Smap.getTarget, Smap.getProxy, hp2, ht2]
    have hadd := addProxy_absent { nsi with flags := flags } hc
    rw [h] at hadd
    unfold Smap.putNode
    rw [h]
    simp [hp, hadd, bind, Except.bind, pure, Except.pure]
  · intro h ht hp
    have hp2 : nmGet m.pmap nsi.id = none := hp
    have ht2 : nmGet m.tmap nsi.id = none := ht
    have hc : m.containsID nsi.id = false := by
      simp [Smap.containsID, Smap.getTarget, Smap.getProxy, hp2, ht2]
    have hadd := addTarget_absent nsi hc
    unfold Smap.putNode
    rw [h]
    simp [ht, hadd, bind, Except.bind, pure, Except.pure]
  · intro h hpt
    have hpt2 : (nmGet m.tmap nsi.id).isSome = true := hpt
    by_cases hpp : (m.getProxy nsi.id).isSome = true
    · have hdel := delProxy_present hpp
      have hc : Smap.containsID
          { m with pmap := nmDel m.pmap nsi.id, version := m.version + 1 }
          nsi.id = true := by
        simp [Smap.containsID, Smap.getTarget, Smap.getProxy, hpt2]
      have hadd := addProxy_present { nsi with flags := flags } hc
      rw [h] at hadd
      refine ⟨"FATAL: duplicate daemon ID", ?_⟩
      unfold Smap.putNode
      rw [h]
      simp [hpp, hdel, hadd, bind, Except.bind, pure, Except.pure]
    · have hc : m.containsID nsi.id = true := by
        simp [Smap.containsID, Smap.getTarget, Smap.getProxy, hpt2]
      have hadd := addProxy_present { nsi with flags := flags } hc
      rw [h] at hadd
      refine ⟨"FATAL: duplicate daemon ID", ?_⟩
      unfold Smap.putNode
      rw [h]
      simp [hpp, hadd, bind, Except.bind, pure, Except.pure]
  · intro h hpp
    have hpp2 : (nmGet m.pmap nsi.id).isSome = true := hpp
    by_cases hpt : (m.getTarget nsi.id).isSome = true
    · have hdel := delTarget_present hpt
      have hc : Smap.containsID
          { m with tmap := nmDel m.tmap nsi.id, version := m.version + 1 }
          nsi.id = true := by
        simp [Smap.containsID, Smap.getTarget, Smap.getProxy, hpp2]
      have hadd := addTarget_present nsi hc
      refine ⟨"FATAL: duplicate daemon ID", ?_⟩
      unfold Smap.putNode
      rw [h]
      simp [hpt, hdel, hadd, bind, Except.bind, pure, Except.pure]
    · have hc : m.containsID nsi.id = true := by
        simp [Smap.containsID, Smap.getTarget, Smap.getProxy, hpp2]
      have hadd := addTarget_present nsi hc
      refine ⟨"FATAL: duplicate daemon ID", ?_⟩
      unfold Smap.putNode
      rw [h]
      simp [hpt, hadd, bind, Except.bind, pure, Except.pure]

/-- Replacement proxy for the C7 witness: same id as nodeP0, new URLs. -/
def nodeP0v2 : Snode := ⟨"p0", .proxy, "pub0b", "intra0b", {}⟩

/-- Proxy descriptor that collides with target t1 across roles. -/
def nodePt1 : Snode := ⟨"t1", .proxy, "pubx", "intrax", {}⟩

/-- Witness for C7: in a map with proxy p0 and target t1, re-joining p0
replaces it (told-replacement, version bumped twice), and joining a proxy
with the id of target t1 fails with the duplicate daemon-id error. -/
theorem putNode_spec_witness :
    nodeP0v2.role = NodeRole.proxy ∧
    ((⟨1, "u", "c", [nodeP0], [nodeT1], some nodeP0⟩ : Smap).getProxy
       "p0").isSome = true ∧
    (Smap.putNode ⟨1, "u", "c", [nodeP0], [nodeT1], some nodeP0⟩ nodeP0v2
        snodeIC =
      .ok ({ (⟨1, "u", "c", [nodeP0], [nodeT1], some nodeP0⟩ : Smap) with
              pmap := nmPut (nmDel [nodeP0] "p0") { nodeP0v2 with flags := snodeIC }
              version := 1 + 1 + 1 }, true)) ∧
    (∃ e, Smap.putNode ⟨1, "u", "c", [nodeP0], [nodeT1], some nodeP0⟩ nodePt1
        snodeIC = .error e) :=
  ⟨rfl, by decide,
   (putNode_spec ⟨1, "u", "c", [nodeP0], [nodeT1], some nodeP0⟩ nodeP0v2
     snodeIC).1 rfl (by decide) (by decide),
   (putNode_spec ⟨1, "u", "c", [nodeP0], [nodeT1], some nodeP0⟩ nodePt1
     snodeIC).2.2.2.2.1 rfl (by decide)⟩

/-! Claim C5: merge version monotonicity. -/

/-- Counterexample to claim C5 as stated: merging map exA (version 10) into
map exB (version 2), both with uuid u, returns exB unchanged at version 2,
which is strictly below max(10, 2): smapX.merge never raises the version of
the destination. -/
theorem merge_version_not_monotone :
    Smap.merge exA exB false = .ok (exB, 0) ∧ exA.uuid = exB.uuid ∧
    exB.version < max exA.version exB.version := by
  refine ⟨rfl, rfl, by decide⟩

theorem delProxy_version {m m1 : Smap} {pid : String}
    (h : m.delProxy pid = .ok m1) : m1.version = m.version + 1 := by
  unfold Smap.delProxy at h
  by_cases hx : (m.getProxy pid).isNone = true
  · rw [if_pos hx] at h
    cases h
  · rw [if_neg hx] at h
    injection h with h2
    subst h2
    rfl

theorem delTarget_version {m m1 : Smap} {sid : String}
    (h : m.delTarget sid = .ok m1) : m1.version = m.version + 1 := by
  unfold Smap.delTarget at h
  by_cases hx : (m.getTarget sid).isNone = true
  · rw [if_pos hx] at h
    cases h
  · rw [if_neg hx] at h
    injection h with h2
    subst h2
    rfl

theorem handleDuplicateURL_version_le {m : Smap} {nsi : Snode} {del : Bool}
    {m1 : Smap} (h : m.handleDuplicateURL nsi del = .ok m1) :
    m.version ≤ m1.version := by
  unfold Smap.handleDuplicateURL at h
  cases hdup : m.isDuplicateURL nsi with
  | none =>
    rw [hdup] at h
    injection h with h2
    subst h2
    exact le_refl _
  | some osi =>
    rw [hdup] at h
    cases del with
    | false => simp at h
    | true =>
      simp only [Bool.not_true, Bool.false_eq_true, if_false] at h
      cases hr : osi.role with
      | proxy =>
        simp only [hr] at h
        rw [delProxy_version h]
        exact Nat.le_succ _
      | target =>
        simp only [hr] at h
        rw [delTarget_version h]
        exact Nat.le_succ _

theorem mergeLoop_version_le (ov it : Bool) (ns : List Snode) :
    ∀ (dst : Smap) (a : Nat) (out : Smap × Nat),
      mergeLoop ov it ns dst a = .ok out → dst.version ≤ out.1.version := by
  induction ns with
  | nil =>
    intro dst a out h
    unfold mergeLoop at h
    injection h with h2
    subst h2
    exact le_refl _
  | cons si rest ih =>
    intro dst a out h
    unfold mergeLoop at h
    cases hd : dst.handleDuplicateURL si ov with
    | error e => rw [hd] at h; cases h
    | ok dst1 =>
      rw [hd] at h
      have h1 := handleDuplicateURL_version_le hd
      by_cases hins :
          ((nmGet dst1.tmap si.id).isNone && (nmGet dst1.pmap si.id).isNone) = true
      · simp only [hins, if_true] at h
        cases it with
        | true =>
          have h2 := ih { dst1 with tmap := nmPut dst1.tmap si } (a + 1) out h
          exact le_trans h1 h2
        | false =>
          have h2 := ih { dst1 with pmap := nmPut dst1.pmap si } (a + 1) out h
          exact le_trans h1 h2
      · simp only [Bool.not_eq_true] at hins
        simp only [hins, Bool.false_eq_true, if_false] at h
        exact le_trans h1 (ih dst1 a out h)

/-- Amended claim C5. smapX.merge never decreases the version of the
destination map (additions leave it unchanged and duplicate-URL deletions
bump it), but it does not raise it to the version of the source: merging A
into B yields a version of at least B.version, not of max(A.version,
B.version). -/
theorem merge_version_ge_dst (src dst : Smap) (ov : Bool) (out : Smap × Nat)
    (h : Smap.merge src dst ov = .ok out) : dst.version ≤ out.1.version := by
  unfold Smap.merge at h
  split at h
  · cases h
  · rename_i dst1 a1 heq1
    split at h
    · cases h
    · rename_i dst2 a2 heq2
      have le1 := mergeLoop_version_le ov true src.tmap dst 0 (dst1, a1) heq1
      have le2 := mergeLoop_version_le ov false src.pmap dst1 a1 (dst2, a2) heq2
      split at h
      · injection h with h3
        subst h3
        exact le_trans le1 le2
      · injection h with h3
        subst h3
        exact le_trans le1 le2

/-- Witness for C5 (amended): the concrete merge of exA into exB keeps the
destination version 2, which satisfies the bound. -/
theorem merge_version_ge_dst_witness :
    Smap.merge exA exB false = .ok (exB, 0) ∧ exB.version ≤ exB.version :=
  ⟨rfl, merge_version_ge_dst exA exB false (exB, 0) rfl⟩

/-! Claim C6: maintenance state versus the IC flag. -/

/-- The node referenced carries both the in-IC flag and a maintenance-mask
bit. -/
def nodeHasICAndMaint : Option Snode → Bool
  | some n => n.flags.isSet snodeIC && n.flags.isAnySet snodeMaintenanceMask
  | none => false

/-- Counterexample to claim C6 as stated: on the valid map ex6 (primary p0,
electable proxy p1 in maintenance state, invariant 5 holding), staffIC adds
p1 to the information council — _fillIC skips only non-electable proxies and
never checks the maintenance mask — so the resulting map has a node carrying
the IC flag together with a maintenance bit. -/
theorem staffIC_puts_maintenance_node_in_IC :
    icMaintOK ex6 = true ∧ icMaintOK (Smap.staffIC ex6) = false ∧
    nodeHasICAndMaint ((Smap.staffIC ex6).getProxy "p1") = true := by
  refine ⟨by decide, by decide, by decide⟩

theorem isSet_snodeIC (f : SnodeFlags) : f.isSet snodeIC = f.ic := by
  simp [SnodeFlags.isSet, snodeIC]

theorem isSet_snodeNonElectable (f : SnodeFlags) :
    f.isSet snodeNonElectable = f.nonElectable := by
  simp [SnodeFlags.isSet, snodeNonElectable]

theorem clear_snodeIC_ic (f : SnodeFlags) : (f.clear snodeIC).ic = false := by
  simp [SnodeFlags.clear, snodeIC]

theorem set_snodeIC_ic (f : SnodeFlags) : (f.set snodeIC).ic = true := by
  simp [SnodeFlags.set, snodeIC]

theorem set_snodeIC_nonElectable (f : SnodeFlags) :
    (f.set snodeIC).nonElectable = f.nonElectable := by
  simp [SnodeFlags.set, snodeIC]

theorem snodeIC_not_maint :
    snodeIC.isAnySet snodeMaintenanceMask = false := by decide

theorem getNode_id {m : Smap} {id : String} {si : Snode}
    (h : m.getNode id = some si) : si.id = id := by
  unfold Smap.getNode at h
  cases ht : m.getTarget id with
  | some t =>
    rw [ht] at h
    injection h with h2
    subst h2
    exact nmGet_id ht
  | none =>
    rw [ht] at h
    exact nmGet_id h

/-- Setting any maintenance-mask bit clears the IC flag of the node: part
one of the amended C6, needing only that Tmap holds targets. -/
theorem setNodeFlags_maint_no_ic (m : Smap) (sid : String) (mask : SnodeFlags)
    (hroles : ∀ n ∈ m.tmap, n.role = NodeRole.target)
    (hmask : mask.isAnySet snodeMaintenanceMask = true)
    (n2 : Snode) (h : (m.setNodeFlags sid mask).getNode sid = some n2) :
    n2.flags.isSet snodeIC = false := by
  unfold Smap.setNodeFlags at h
  cases hget : m.getNode sid with
  | none =>
    rw [hget] at h
    rw [hget] at h
    cases h
  | some si =>
    rw [hget] at h
    simp only [hmask, if_true] at h
    have hsid : si.id = sid := getNode_id hget
    unfold Smap.applyFlags at h
    cases hrole : si.role with
    | target =>
      simp only [hrole] at h
      have hput :
          nmGet (nmPut m.tmap
              ⟨si.id, NodeRole.target, si.publicURL, si.intraURL,
                (si.flags.set mask).clear snodeIC⟩) sid
            = some ⟨si.id, NodeRole.target, si.publicURL, si.intraURL,
                (si.flags.set mask).clear snodeIC⟩ :=
        nmGet_nmPut_self hsid
      simp only [Smap.getNode, Smap.getTarget] at h
      rw [hput] at h
      injection h with h2
      subst h2
      simp [isSet_snodeIC, clear_snodeIC_ic]
    | proxy =>
      simp only [hrole] at h
      have htm : nmGet m.tmap sid = none := by
        cases htm2 : nmGet m.tmap sid with
        | none => rfl
        | some t =>
          have hgt : m.getNode sid = some t := by
            unfold Smap.getNode
            simp [Smap.getTarget, htm2]
          rw [hget] at hgt
          injection hgt with h2
          have hrt : si.role = NodeRole.target := by
            rw [h2]
            exact hroles t (nmGet_mem htm2)
          rw [hrole] at hrt
          cases hrt
      have hput :
          nmGet (nmPut m.pmap
              ⟨si.id, NodeRole.proxy, si.publicURL, si.intraURL,
                (si.flags.set mask).clear snodeIC⟩) sid
            = some ⟨si.id, NodeRole.proxy, si.publicURL, si.intraURL,
                (si.flags.set mask).clear snodeIC⟩ :=
        nmGet_nmPut_self hsid
      simp only [Smap.getNode, Smap.getTarget, Smap.getProxy] at h
      rw [htm] at h
      rw [hput] at h
      injection h with h2
      subst h2
      simp [isSet_snodeIC, clear_snodeIC_ic]

/-- One addIC step of _fillIC on an electable proxy preserves the map
well-formedness and lets only electable nodes (or nodes already IC at the
start, recorded by the predicate P) carry the IC flag. -/
theorem addIC_step (P : String → Prop) (m : Smap) (pid : String) (si : Snode)
    (hg : nmGet m.pmap pid = some si)
    (hne : si.flags.isSet snodeNonElectable = false)
    (h1 : ∀ n ∈ m.tmap, n.role = NodeRole.target)
    (h2 : ∀ n ∈ m.pmap, n.role = NodeRole.proxy)
    (h3 : ∀ n ∈ m.tmap, nmGet m.pmap n.id = none)
    (h4 : ∀ n ∈ m.pmap, n.flags.ic = true →
      n.flags.nonElectable = false ∨ P n.id) :
    (∀ n ∈ (m.addIC si).tmap, n.role = NodeRole.target) ∧
    (∀ n ∈ (m.addIC si).pmap, n.role = NodeRole.proxy) ∧
    (∀ n ∈ (m.addIC si).tmap, nmGet (m.addIC si).pmap n.id = none) ∧
    (∀ n ∈ (m.addIC si).pmap, n.flags.ic = true →
      n.flags.nonElectable = false ∨ P n.id) := by
  have hsid : si.id = pid := nmGet_id hg
  have hgp : nmGet m.pmap si.id = some si := by rw [hsid]; exact hg
  unfold Smap.addIC
  by_cases hic : si.flags.isSet snodeIC = true
  · simp only [hic, if_true]
    exact ⟨h1, h2, h3, h4⟩
  · simp only [Bool.not_eq_true] at hic
    simp only [hic, Bool.false_eq_true, if_false]
    have htm : nmGet m.tmap si.id = none := by
      cases htm2 : nmGet m.tmap si.id with
      | none => rfl
      | some t =>
        have hid : t.id = si.id := nmGet_id htm2
        have := h3 t (nmGet_mem htm2)
        rw [hid, hgp] at this
        cases this
    have hrole : si.role = NodeRole.proxy := h2 si (nmGet_mem hgp)
    unfold Smap.setNodeFlags
    have hgn : m.getNode si.id = some si := by
      unfold Smap.getNode
      simp only [Smap.getTarget]
      rw [htm]
      exact hgp
    rw [hgn]
    simp only [snodeIC_not_maint, Bool.false_eq_true, if_false]
    unfold Smap.applyFlags
    simp only [hrole]
    refine ⟨h1, ?_, ?_, ?_⟩
    · intro n hn
      rcases nmPut_mem hn with h5 | h5
      · rw [h5]
      · exact h2 n h5
    · intro n hn
      have hne2 : n.id ≠ si.id := by
        intro heq
        have := h3 n hn
        rw [heq, hgp] at this
        cases this
      have hrw : nmGet (nmPut m.pmap
            ⟨si.id, NodeRole.proxy, si.publicURL, si.intraURL,
              si.flags.set snodeIC⟩) n.id
          = nmGet m.pmap n.id := nmGet_nmPut_ne hne2
      rw [hrw]
      exact h3 n hn
    · intro n hn hicn
      rcases nmPut_mem hn with h5 | h5
      · left
        rw [h5]
        simp only [set_snodeIC_nonElectable]
        rw [isSet_snodeNonElectable] at hne
        exact hne
      · exact h4 n h5 hicn

/-- The _fillIC iteration preserves well-formedness and the property that
every IC-flagged proxy is electable or was IC before (predicate P). -/
theorem fillICgo_inv (P : String → Prop) (ids : List String) :
    ∀ (m : Smap),
      (∀ n ∈ m.tmap, n.role = NodeRole.target) →
      (∀ n ∈ m.pmap, n.role = NodeRole.proxy) →
      (∀ n ∈ m.tmap, nmGet m.pmap n.id = none) →
      (∀ n ∈ m.pmap, n.flags.ic = true →
         n.flags.nonElectable = false ∨ P n.id) →
      ((∀ n ∈ (fillICgo ids m).tmap, n.role = NodeRole.target) ∧
       (∀ n ∈ (fillICgo ids m).pmap, n.role = NodeRole.proxy) ∧
       (∀ n ∈ (fillICgo ids m).tmap, nmGet (fillICgo ids m).pmap n.id = none) ∧
       (∀ n ∈ (fillICgo ids m).pmap, n.flags.ic = true →
          n.flags.nonElectable = false ∨ P n.id)) := by
  induction ids with
  | nil =>
    intro m h1 h2 h3 h4
    exact ⟨h1, h2, h3, h4⟩
  | cons pid rest ih =>
    intro m h1 h2 h3 h4
    unfold fillICgo
    cases hg : m.getProxy pid with
    | none => exact ih m h1 h2 h3 h4
    | some si =>
      by_cases hne : si.flags.isSet snodeNonElectable = true
      · simp only [hne, if_true]
        exact ih m h1 h2 h3 h4
      · simp only [Bool.not_eq_true] at hne
        simp only [hne, Bool.false_eq_true, if_false]
        have key := addIC_step P m pid si hg hne h1 h2 h3 h4
        by_cases hcnt : defaultICSize ≤ (m.addIC si).icCount
        · simp only [hcnt, if_true]
          exact key
        · simp only [hcnt, if_false]
          exact ih (m.addIC si) key.1 key.2.1 key.2.2.1 key.2.2.2

/-- Amended claim C6. The coupled flag rule holds: setting any
maintenance-mask bit on a node clears its in-IC flag. The IC-staffing fill
step, however, filters only on electability: every proxy carrying the IC
flag after fillIC is either electable or already carried the flag before —
a proxy in maintenance state that is electable can be and is added to the
IC (see the counterexample), so only the non-electable part of the claimed
exclusion holds. -/
theorem ic_flag_semantics (m : Smap)
    (hroles : rolesOK m) (hdisj : mapsDisjoint m) :
    (∀ sid mask n2, mask.isAnySet snodeMaintenanceMask = true →
       (m.setNodeFlags sid mask).getNode sid = some n2 →
       n2.flags.isSet snodeIC = false) ∧
    (∀ n ∈ (m.fillIC).pmap, n.flags.isSet snodeIC = true →
       n.flags.isSet snodeNonElectable = false ∨ icIn m n.id) := by
  constructor
  · intro sid mask n2 hmask h
    exact setNodeFlags_maint_no_ic m sid mask hroles.1 hmask n2 h
  · have base : ∀ n ∈ m.pmap, n.flags.ic = true →
        n.flags.nonElectable = false ∨ icIn m n.id := by
      intro n hn hic
      right
      exact ⟨n, hn, rfl, by rw [isSet_snodeIC]; exact hic⟩
    unfold Smap.fillIC
    by_cases hcnt : defaultICSize ≤ m.icCount
    · simp only [hcnt, if_true]
      intro n hn hic
      rcases base n hn (by rw [isSet_snodeIC] at hic; exact hic) with h5 | h5
      · left
        rw [isSet_snodeNonElectable]
        exact h5
      · right
        exact h5
    · simp only [hcnt, if_false]
      have key := fillICgo_inv (icIn m) (List.map (fun si => si.id) m.pmap) m
        hroles.1 hroles.2 hdisj base
      intro n hn hic
      rcases key.2.2.2 n hn (by rw [isSet_snodeIC] at hic; exact hic) with h5 | h5
      · left
        rw [isSet_snodeNonElectable]
        exact h5
      · right
        exact h5

/-- Node p0 after setting the full maintenance mask on it in ex6. -/
def c6n2 : Snode :=
  ⟨"p0", .proxy, "pub0", "intra0", { maintenance := true, decommission := true }⟩

/-- Node p0 after fillIC on ex6: electable and IC-flagged. -/
def c6fill0 : Snode := ⟨"p0", .proxy, "pub0", "intra0", { ic := true }⟩

/-- Witness for C6 (amended): on ex6, setting the maintenance mask on p0
leaves it without the IC flag, and the IC-flagged p0 produced by fillIC is
electable. -/
theorem ic_flag_semantics_witness :
    rolesOK ex6 ∧ mapsDisjoint ex6 ∧
    c6n2.flags.isSet snodeIC = false ∧
    (c6fill0.flags.isSet snodeNonElectable = false ∨ icIn ex6 c6fill0.id) :=
  ⟨by unfold rolesOK; decide, by unfold mapsDisjoint; decide,
   (ic_flag_semantics ex6 (by unfold rolesOK; decide)
     (by unfold mapsDisjoint; decide)).1 "p0" snodeMaintenanceMask
     c6n2 (by decide) (by decide),
   (ic_flag_semantics ex6 (by unfold rolesOK; decide)
     (by unfold mapsDisjoint; decide)).2 c6fill0 (by decide)
     (by decide)⟩

end AIS
